import Mathlib

/-!
# Verification of the DRA "Distance to Boundary" proximity engine

Shallow embedding of the asset-proximity resolution core of
`DRA_Distance_to_Boundary_v17.py`:

* `map_category_by_tags` — the ordered tag/text classification cascade;
* `zone_flags` — the distance banding with "X"/"" flag cells;
* `query_overpass` — the endpoint-failover loop;
* the relation member-geometry minimum selection;
* the per-row processing pipeline of `process_coords` (radius filter,
  banding, row construction, first-occurrence dedup, no-asset and error
  rows).

Modelling conventions: Python floats are modelled as rationals (`ℚ`); the
numeric geometry (pyproj reprojection, shapely nearest-point search,
geodesic distance) is external numeric code and enters the embedding as
abstract function parameters, exactly at the boundaries the source uses
them; CSV cells are strings, numeric cells rendered with `ratStr`.
-/

namespace DRA

/-- Character-list version of "is a prefix of", Bool-valued. -/
def prefMatch : List Char → List Char → Bool
  | [], _ => true
  | _ :: _, [] => false
  | c :: cs, d :: ds => c == d && prefMatch cs ds

/-- Does `pat` occur as a contiguous run inside the character list? -/
def substrAux (pat : List Char) : List Char → Bool
  | [] => prefMatch pat []
  | c :: cs => prefMatch pat (c :: cs) || substrAux pat cs

/-- Python's `pat in s` substring test. -/
def strContains (s pat : String) : Bool := substrAux pat.data s.data

/-- Python's `str.lower()` (ASCII case folding, character by character). -/
def strLower (s : String) : String := ⟨List.map Char.toLower s.data⟩

/-- OSM tag mapping: ordered association list of key/value strings
(insertion-ordered, like a Python dict). -/
abbrev Tags := List (String × String)

/-- `tags.get(k)`: value of the first binding of `k`. -/
def getTag (tags : Tags) (k : String) : Option String :=
  (List.find? (fun kv => kv.1 == k) tags).map (fun kv => kv.2)

/-- `tags.get(k) == v` (Python equality against a string literal). -/
def tagIs (tags : Tags) (k v : String) : Bool := getTag tags k == some v

/-- Python truthiness of `tags.get(k)`: key present with a non-empty value. -/
def tagTruthy (tags : Tags) (k : String) : Bool :=
  match getTag tags k with
  | some s => s != ""
  | none => false

/-- Python `k in tags` key membership. -/
def hasKey (tags : Tags) (k : String) : Bool := (getTag tags k).isSome

/-- The source's `text` variable:
`" ".join(str(v).lower() for v in tags.values()) + " " + name.lower()`. -/
def tagText (tags : Tags) (name : String) : String :=
  String.intercalate " " (List.map (fun kv => strLower kv.2) tags)
    ++ " " ++ strLower name

/-- Structured-tag part of rule 1: `landuse=landfill`, `leisure=dump` or
`waste=landfill` (rule 1 has no free-text part). -/
def sc1 (tags : Tags) : Bool :=
  tagIs tags "landuse" "landfill" || tagIs tags "leisure" "dump"
    || tagIs tags "waste" "landfill"

/-- Structured-tag part of rule 2: `landuse=scrap_yard` or a truthy
`recycling` tag. -/
def sc2 (tags : Tags) : Bool :=
  tagIs tags "landuse" "scrap_yard" || tagTruthy tags "recycling"

/-- Structured-tag part of rule 3: `man_made=gasometer`. -/
def sc3 (tags : Tags) : Bool := tagIs tags "man_made" "gasometer"

/-- Structured-tag part of rule 4: `amenity=fuel` (no free-text part). -/
def sc4 (tags : Tags) : Bool := tagIs tags "amenity" "fuel"

/-- Structured-tag part of rule 5: `power=substation`. -/
def sc5 (tags : Tags) : Bool := tagIs tags "power" "substation"

/-- Structured-tag part of rule 6: `man_made` in
`(wastewater_plant, sewage_works)`. -/
def sc6 (tags : Tags) : Bool :=
  tagIs tags "man_made" "wastewater_plant" || tagIs tags "man_made" "sewage_works"

/-- Structured-tag part of rule 7: `landuse=industrial` or
`industrial=yes`. -/
def sc7 (tags : Tags) : Bool :=
  tagIs tags "landuse" "industrial" || tagIs tags "industrial" "yes"

/-- Structured-tag part of rule 8: `landuse=quarry` or `mining=yes`. -/
def sc8 (tags : Tags) : Bool :=
  tagIs tags "landuse" "quarry" || tagIs tags "mining" "yes"

/-- Structured-tag part of rule 9: `power=plant` or a `plant:source`
key. -/
def sc9 (tags : Tags) : Bool :=
  tagIs tags "power" "plant" || hasKey tags "plant:source"

/-- Full predicate of rule 1. -/
def cond1 (tags : Tags) : Bool := sc1 tags

/-- Full predicate of rule 2: structured part or `"scrap" in text`. -/
def cond2 (tags : Tags) (name : String) : Bool :=
  sc2 tags || strContains (tagText tags name) "scrap"

/-- Full predicate of rule 3: structured part, `"gasholder" in text`, or
`"gas holder" in text`. -/
def cond3 (tags : Tags) (name : String) : Bool :=
  sc3 tags || strContains (tagText tags name) "gasholder"
    || strContains (tagText tags name) "gas holder"

/-- Full predicate of rule 4. -/
def cond4 (tags : Tags) : Bool := sc4 tags

/-- Full predicate of rule 5: structured part or `"substation" in text`. -/
def cond5 (tags : Tags) (name : String) : Bool :=
  sc5 tags || strContains (tagText tags name) "substation"

/-- Full predicate of rule 6: structured part or `"sewage" in text`. -/
def cond6 (tags : Tags) (name : String) : Bool :=
  sc6 tags || strContains (tagText tags name) "sewage"

/-- Full predicate of rule 7: structured part or `"factory" in text`. -/
def cond7 (tags : Tags) (name : String) : Bool :=
  sc7 tags || strContains (tagText tags name) "factory"

/-- Full predicate of rule 8: structured part or `"quarry" in text`. -/
def cond8 (tags : Tags) (name : String) : Bool :=
  sc8 tags || strContains (tagText tags name) "quarry"

/-- Full predicate of rule 9: structured part or `"power plant" in
text`. -/
def cond9 (tags : Tags) (name : String) : Bool :=
  sc9 tags || strContains (tagText tags name) "power plant"

/-- `map_category_by_tags(tags, name)` — the ordered classification
cascade, translated branch by branch from the source (the source binds
`text` once; here `tagText tags name` is written out at each use, and the
nine leading rule predicates are factored into `cond1`…`cond9`). -/
def map_category_by_tags (tags : Tags) (name : String) : Option String :=
  if cond1 tags then some "Waste Sites"
  else if cond2 tags name then some "Waste Sites"
  else if cond3 tags name then some "Gas holder stations"
  else if cond4 tags then some "Petrol stations / Garages"
  else if cond5 tags name then some "Sub-Stations"
  else if cond6 tags name then some "Sewage Treatment Works"
  else if cond7 tags name then some "Industrial / Manufacturing"
  else if cond8 tags name then some "Mining (coal, metalliferous)"
  else if cond9 tags name then some "Power Plants"
  else if strContains (tagText tags name) "waste" then some "Waste Sites"
  else if strContains (tagText tags name) "petrol"
      || strContains (tagText tags name) "garage"
      || strContains (tagText tags name) "garages"
      || strContains (tagText tags name) "fuel" then some "Petrol stations / Garages"
  else if strContains (tagText tags name) "substation" then some "Sub-Stations"
  else if strContains (tagText tags name) "sewage"
      || strContains (tagText tags name) "treatment works" then some "Sewage Treatment Works"
  else if strContains (tagText tags name) "industrial"
      || strContains (tagText tags name) "manufacturing"
      || strContains (tagText tags name) "factory" then some "Industrial / Manufacturing"
  else if strContains (tagText tags name) "mining"
      || strContains (tagText tags name) "quarry" then some "Mining (coal, metalliferous)"
  else none

/-- The structured-tag components of the cascade's rules, in the same
order, with every free-text substring disjunct dropped.  This is the
"structured-tag category" the specification speaks about. -/
def structured_category (tags : Tags) : Option String :=
  if sc1 tags then some "Waste Sites"
  else if sc2 tags then some "Waste Sites"
  else if sc3 tags then some "Gas holder stations"
  else if sc4 tags then some "Petrol stations / Garages"
  else if sc5 tags then some "Sub-Stations"
  else if sc6 tags then some "Sewage Treatment Works"
  else if sc7 tags then some "Industrial / Manufacturing"
  else if sc8 tags then some "Mining (coal, metalliferous)"
  else if sc9 tags then some "Power Plants"
  else none

/-- The first nine rules of the cascade (the ones that carry a structured
tag test, possibly disjoined with text tests), without the trailing
substring-only fallback rules. -/
def head_rules_category (tags : Tags) (name : String) : Option String :=
  if cond1 tags then some "Waste Sites"
  else if cond2 tags name then some "Waste Sites"
  else if cond3 tags name then some "Gas holder stations"
  else if cond4 tags then some "Petrol stations / Garages"
  else if cond5 tags name then some "Sub-Stations"
  else if cond6 tags name then some "Sewage Treatment Works"
  else if cond7 tags name then some "Industrial / Manufacturing"
  else if cond8 tags name then some "Mining (coal, metalliferous)"
  else if cond9 tags name then some "Power Plants"
  else none

/-- Zone column headers (`ZONE_A` … `ZONE_D` in the source). -/
def ZONE_A : String := "<10m"

def ZONE_B : String := "10-25m"

def ZONE_C : String := ">25-50m"

def ZONE_D : String := ">50-100m"

/-- The distance band flags: the dict returned by `zone_flags`, one
"X"/"" cell per fixed zone column. -/
structure ZoneFlagsT where
  zA : String
  zB : String
  zC : String
  zD : String
deriving DecidableEq, Repr

/-- `zone_flags(dist_m)`, cell by cell from the source. -/
def zone_flags (dist_m : ℚ) : ZoneFlagsT where
  zA := if dist_m < 10 then "X" else ""
  zB := if 10 ≤ dist_m ∧ dist_m ≤ 25 then "X" else ""
  zC := if 25 < dist_m ∧ dist_m ≤ 50 then "X" else ""
  zD := if 50 < dist_m ∧ dist_m ≤ 100 then "X" else ""

/-- Python `any(flags.values())`: some cell is a non-empty string. -/
def flagsAny (f : ZoneFlagsT) : Bool :=
  f.zA != "" || f.zB != "" || f.zC != "" || f.zD != ""

/-- Number of set ("truthy") flag cells. -/
def flagsTrueCount (f : ZoneFlagsT) : ℕ :=
  (if f.zA = "" then 0 else 1) + (if f.zB = "" then 0 else 1)
    + (if f.zC = "" then 0 else 1) + (if f.zD = "" then 0 else 1)

/-! ## Endpoint failover (`query_overpass`) -/

/-- First Overpass endpoint. -/
def EP1 : String := "https://overpass.kumi.systems/api/interpreter"

/-- Second Overpass endpoint. -/
def EP2 : String := "https://overpass-api.de/api/interpreter"

/-- Third Overpass endpoint. -/
def EP3 : String := "https://lz4.overpass-api.de/api/interpreter"

/-- The fixed ordered ring of redundant Overpass endpoints. -/
def OVERPASS_ENDPOINTS : List String := [EP1, EP2, EP3]

/-- The loop body of `query_overpass`: try each url in order with
`fetch` (one `fetch` covers the whole attempt — request, status check,
payload decode — failing with an error of type `E`), remembering the last
error (`last_exc`, initially absent); on exhaustion re-raise it. -/
def tryEndpoints {E R : Type} (fetch : String → Except E R) :
    List String → Option E → Except (Option E) (R × String)
  | [], last => Except.error last
  | url :: rest, _last =>
    match fetch url with
    | Except.ok r => Except.ok (r, url)
    | Except.error e => tryEndpoints fetch rest (some e)

/-- `query_overpass(query)`: iterate the fixed endpoint list, return the
first success together with the serving url, raise the last error after
exhausting all endpoints. -/
def query_overpass {E R : Type} (fetch : String → Except E R) :
    Except (Option E) (R × String) :=
  tryEndpoints fetch OVERPASS_ENDPOINTS none

/-! ## Output rows, rounding, dedup -/

/-- `SEARCH_RADIUS = 100` meters. -/
def SEARCH_RADIUS : ℚ := 100

/-- The distinguished informational message for an empty match set. -/
def NO_ASSET_MESSAGE : String := "No asset found within 100m range"

/-- Rendering of a numeric value into its CSV cell. -/
def ratStr (q : ℚ) : String := toString q

/-- Python's `round(x, 2)`, over the rational model of floats (ties are a
float artefact in the source and are not relied on by any claim). -/
def roundQ2 (q : ℚ) : ℚ := (round (q * 100) : ℤ) / 100

/-- One output CSV record: the 19 `OUTPUT_FIELDS` columns, in source
order.  Numeric cells are rendered strings (`ratStr`), empty cells are
`""`; the `Raw_Tags` cell keeps the tag list itself rather than its JSON
rendering, which no behaviour depends on. -/
structure Row where
  jobRef : String
  inputEasting : String
  inputNorthing : String
  convLat : String
  convLon : String
  assetName : String
  category : String
  distance : String
  zA : String
  zB : String
  zC : String
  zD : String
  osmType : String
  osmId : String
  assetEasting : String
  assetNorthing : String
  rawTags : Tags
  server : String
  exc : String
deriving DecidableEq, Repr

/-- The CSV dedup key: `f"{ae}_{an}"`, extended with the OSM id when
either projected coordinate cell is empty. -/
def dedupKey (r : Row) : String :=
  if r.assetEasting = "" ∨ r.assetNorthing = "" then
    (r.assetEasting ++ "_" ++ r.assetNorthing) ++ "_" ++ r.osmId
  else r.assetEasting ++ "_" ++ r.assetNorthing

/-- The dedup loop: walk the candidates in order with the `seen_coords`
set (modelled as the list of keys already seen), keeping an item only
when its key is new. -/
def dedupe_acc : List Row → List String → List Row
  | [], _ => []
  | it :: rest, seen =>
    if dedupKey it ∈ seen then dedupe_acc rest seen
    else it :: dedupe_acc rest (dedupKey it :: seen)

/-- Dedup of the all-candidates list (`matched_items_unique` from
`matched_items_all`). -/
def dedupe (l : List Row) : List Row := dedupe_acc l []

/-! ## Per-element candidate construction and the per-row pipeline -/

/-- One Overpass element as the engine consumes it: type, id and tags.
The numeric id is modelled by its decimal string, which is all the engine
uses (serialization and key building); geometry is consumed only through
the abstract distance resolver. -/
structure Element where
  typ : String
  id : String
  tags : Tags
deriving DecidableEq, Repr

/-- Per-candidate context assembled by the element loop before the
radius filter: everything that goes into the output row besides the
distance and the reprojected nearest point. -/
structure CandCtx where
  jobRef : String
  easting : ℚ
  northing : ℚ
  lat : ℚ
  lon : ℚ
  name : String
  category : String
  osmType : String
  osmId : String
  tags : Tags
  server : String
deriving DecidableEq, Repr

/-- Lines 647–686 of the element loop: discard a candidate beyond
`SEARCH_RADIUS`, band the (unrounded) distance, discard if no flag is
set, and otherwise build the output row — rounding the distance and the
reprojected asset coordinates (`assetEN`, the result of
`transformer_back`, absent when that reprojection failed) only inside the
emitted cells. -/
def emit_candidate (c : CandCtx) (dist_m : ℚ) (assetEN : Option (ℚ × ℚ)) :
    Option Row :=
  if dist_m > SEARCH_RADIUS then none
  else if flagsAny (zone_flags dist_m) = false then none
  else some {
    jobRef := c.jobRef
    inputEasting := ratStr c.easting
    inputNorthing := ratStr c.northing
    convLat := ratStr c.lat
    convLon := ratStr c.lon
    assetName := c.name
    category := c.category
    distance := ratStr (roundQ2 dist_m)
    zA := (zone_flags dist_m).zA
    zB := (zone_flags dist_m).zB
    zC := (zone_flags dist_m).zC
    zD := (zone_flags dist_m).zD
    osmType := c.osmType
    osmId := c.osmId
    assetEasting := match assetEN with
      | some en => ratStr (roundQ2 en.1)
      | none => ""
    assetNorthing := match assetEN with
      | some en => ratStr (roundQ2 en.2)
      | none => ""
    rawTags := c.tags
    server := c.server
    exc := "" }

/-- One iteration of the element loop: classify (skip on `none`), resolve
the distance and nearest point through the abstract resolver `resolveEl`
(skip on `none`; it returns `(dist_m, nearest_lat, nearest_lon)` and
covers the node / way / relation / center cascade), reproject the nearest
point with `toEN` (`transformer_back`; `none` models its exception), and
emit. -/
def element_match (resolveEl : Element → Option (ℚ × ℚ × ℚ))
    (toEN : ℚ → ℚ → Option (ℚ × ℚ))
    (jobRef : String) (easting northing lat lon : ℚ) (server : String)
    (el : Element) : Option Row :=
  match map_category_by_tags el.tags ((getTag el.tags "name").getD "Unnamed asset") with
  | none => none
  | some cat =>
    match resolveEl el with
    | none => none
    | some (d, nlat, nlon) =>
      emit_candidate
        { jobRef := jobRef, easting := easting, northing := northing
          lat := lat, lon := lon
          name := (getTag el.tags "name").getD "Unnamed asset"
          category := cat, osmType := el.typ, osmId := el.id
          tags := el.tags, server := server }
        d (toEN nlon nlat)

/-- One input CSV row: job reference and the raw easting/northing cells. -/
structure InputRow where
  jobRef : String
  easting : String
  northing : String
deriving DecidableEq, Repr

/-- The error record for an unparseable easting/northing (the source
appends the Python exception text to the message; the constant prefix is
kept). -/
def invalid_row (r : InputRow) : Row :=
  { jobRef := r.jobRef, inputEasting := r.easting, inputNorthing := r.northing
    convLat := "", convLon := "", assetName := "", category := "", distance := ""
    zA := "", zB := "", zC := "", zD := "", osmType := "", osmId := ""
    assetEasting := "", assetNorthing := "", rawTags := [], server := ""
    exc := "Invalid input coords" }

/-- The error record when every Overpass endpoint failed for this row. -/
def overpass_error_row (r : InputRow) (easting northing lat lon : ℚ)
    (err : String) : Row :=
  { jobRef := r.jobRef, inputEasting := ratStr easting
    inputNorthing := ratStr northing
    convLat := ratStr lat, convLon := ratStr lon
    assetName := "", category := "", distance := ""
    zA := "", zB := "", zC := "", zD := "", osmType := "", osmId := ""
    assetEasting := "", assetNorthing := "", rawTags := [], server := ""
    exc := "Overpass error: " ++ err }

/-- The distinguished "no asset found" record emitted when the query
succeeded but the deduplicated match set is empty. -/
def no_asset_row (r : InputRow) (easting northing lat lon : ℚ)
    (server : String) : Row :=
  { jobRef := r.jobRef, inputEasting := ratStr easting
    inputNorthing := ratStr northing
    convLat := ratStr lat, convLon := ratStr lon
    assetName := "", category := "", distance := ""
    zA := "", zB := "", zC := "", zD := "", osmType := "", osmId := ""
    assetEasting := "", assetNorthing := "", rawTags := []
    server := server
    exc := NO_ASSET_MESSAGE }

/-- Processing of one input row (the body of the `for idx, row` loop):
parse the coordinates (`float(...)`, abstracted by `parse`; failure gives
the invalid-coordinates record), project to geographic (`project`, i.e.
`transformer.transform`, returning `(lon, lat)`), query Overpass
(`runQuery lat lon`, failure gives the error record), build the
all-candidates list in encounter order, dedup it, and emit either the
unique rows or the single no-asset record. -/
def process_row (parse : String → Option ℚ) (project : ℚ → ℚ → ℚ × ℚ)
    (runQuery : ℚ → ℚ → Except String (List Element × String))
    (resolve : ℚ → ℚ → Element → Option (ℚ × ℚ × ℚ))
    (toEN : ℚ → ℚ → Option (ℚ × ℚ))
    (r : InputRow) : List Row :=
  match parse r.easting, parse r.northing with
  | some easting, some northing =>
    let lon := (project easting northing).1
    let lat := (project easting northing).2
    match runQuery lat lon with
    | Except.error e => [overpass_error_row r easting northing lat lon e]
    | Except.ok (els, server) =>
      let matched_items_all := els.filterMap
        (element_match (resolve lat lon) toEN r.jobRef easting northing lat lon server)
      let matched_items_unique := dedupe matched_items_all
      if matched_items_unique.isEmpty then
        [no_asset_row r easting northing lat lon server]
      else matched_items_unique
  | _, _ => [invalid_row r]

/-- The whole run of `process_coords`: every input row processed in
order, records appended to the output CSV in order. -/
def process_coords (parse : String → Option ℚ) (project : ℚ → ℚ → ℚ × ℚ)
    (runQuery : ℚ → ℚ → Except String (List Element × String))
    (resolve : ℚ → ℚ → Element → Option (ℚ × ℚ × ℚ))
    (toEN : ℚ → ℚ → Option (ℚ × ℚ))
    (rows : List InputRow) : List Row :=
  rows.flatMap (process_row parse project runQuery resolve toEN)

/-! ## Relation member-geometry aggregation -/

/-- The member-geometry loop of the relation branch: for each fetched
coordinate sequence (skipping empty ones), compute the line/area distance
through the abstract per-sequence resolver `seqDist` (which returns
`(distance, nearest_lat, nearest_lon)`, `none` on a geometry-construction
failure) and keep the strictly smaller distance. -/
def member_min (seqDist : List (ℚ × ℚ) → Option (ℚ × ℚ × ℚ)) :
    List (List (ℚ × ℚ)) → Option (ℚ × ℚ × ℚ) → Option (ℚ × ℚ × ℚ)
  | [], best => best
  | coords :: rest, best =>
    if coords.isEmpty then member_min seqDist rest best
    else
      match seqDist coords with
      | none => member_min seqDist rest best
      | some res =>
        match best with
        | none => member_min seqDist rest (some res)
        | some bres =>
          if res.1 < bres.1 then member_min seqDist rest (some res)
          else member_min seqDist rest (some bres)

/-- The relation branch: use inline geometry if present and resolvable;
otherwise take the minimum over the fetched member-way sequences; finally
fall back to the precomputed center (at `centerDist`, the geodesic
distance to it). -/
def relation_distance (seqDist : List (ℚ × ℚ) → Option (ℚ × ℚ × ℚ))
    (inlineGeom : Option (List (ℚ × ℚ)))
    (memberGeoms : List (List (ℚ × ℚ)))
    (center : Option (ℚ × ℚ))
    (centerDist : ℚ × ℚ → ℚ) : Option (ℚ × ℚ × ℚ) :=
  let inline_d : Option (ℚ × ℚ × ℚ) :=
    match inlineGeom with
    | some coords => if coords.isEmpty then none else seqDist coords
    | none => none
  match inline_d with
  | some res => some res
  | none =>
    match member_min seqDist memberGeoms none with
    | some res => some res
    | none =>
      match center with
      | some c => some (centerDist c, c)
      | none => none

/-! ## Concrete sample data for witnesses -/

/-- A fetch function for which the first two endpoints fail and the third
succeeds. -/
def fetchW : String → Except String String :=
  fun u => if u = EP3 then Except.ok "payload" else Except.error ("failed " ++ u)

/-- A parse function failing exactly on the cell "bad". -/
def parse0 : String → Option ℚ := fun s => if s = "bad" then none else some 1

/-- A sample projection (identity-like). -/
def project0 : ℚ → ℚ → ℚ × ℚ := fun e n => (e, n)

/-- A query returning no elements, served by "srv". -/
def runQuery0 : ℚ → ℚ → Except String (List Element × String) :=
  fun _ _ => Except.ok ([], "srv")

/-- A resolver that resolves nothing. -/
def resolveQ0 : ℚ → ℚ → Element → Option (ℚ × ℚ × ℚ) := fun _ _ _ => none

/-- A back-projection that always fails. -/
def toEN0 : ℚ → ℚ → Option (ℚ × ℚ) := fun _ _ => none

/-- A sample input row with parseable coordinates. -/
def rowIn : InputRow := { jobRef := "J", easting := "1", northing := "2" }

/-- A sample input row with an unparseable easting. -/
def rowBad : InputRow := { jobRef := "J2", easting := "bad", northing := "2" }

/-- A sample match record. -/
def rowA : Row :=
  { jobRef := "J1", inputEasting := "1", inputNorthing := "2"
    convLat := "0", convLon := "0", assetName := "A"
    category := "Sub-Stations", distance := "5"
    zA := "X", zB := "", zC := "", zD := ""
    osmType := "node", osmId := "11"
    assetEasting := "100.25", assetNorthing := "200.5"
    rawTags := [], server := "s", exc := "" }

/-- A second match record with the same projected coordinates as `rowA`
but a different source feature. -/
def rowB : Row := { rowA with assetName := "B", osmId := "22" }

/-- `rowA` stripped of its projected coordinates (unresolvable
geometry). -/
def rowN1 : Row := { rowA with assetEasting := "", assetNorthing := "" }

/-- `rowB` stripped of its projected coordinates: a distinct feature (id
22 instead of 11) also lacking geometry. -/
def rowN2 : Row := { rowB with assetEasting := "", assetNorthing := "" }

/-- A sample per-candidate context. -/
def ctx0 : CandCtx :=
  { jobRef := "J", easting := 1, northing := 2, lat := 3, lon := 4
    name := "N", category := "Sub-Stations", osmType := "node", osmId := "1"
    tags := [], server := "s" }

/-- A sample element carrying a structured tag. -/
def el0 : Element := { typ := "node", id := "1", tags := [("power", "substation")] }

/-- A resolver giving every element distance 5. -/
def resolve0 : Element → Option (ℚ × ℚ × ℚ) := fun _ => some (5, 1, 2)

/-- First member-way coordinate sequence. -/
def g1 : List (ℚ × ℚ) := [(0, 0), (1, 0)]

/-- Second member-way coordinate sequence. -/
def g2 : List (ℚ × ℚ) := [(2, 0), (3, 0)]

/-- A per-sequence distance resolver: `g1` at 60 m, `g2` at 45 m. -/
def seqDist0 : List (ℚ × ℚ) → Option (ℚ × ℚ × ℚ) :=
  fun g => if g = g1 then some (60, 0, 0)
    else if g = g2 then some (45, 1, 1) else none

/-- A sample center-distance function. -/
def centerDist0 : ℚ × ℚ → ℚ := fun _ => 0

/-! ## Theorems -/

/-- A structured-tag category exists exactly when one of the nine
structured tests holds. -/
theorem structured_isSome_or (tags : Tags)
    (h : (structured_category tags).isSome = true) :
    (sc1 tags || sc2 tags || sc3 tags || sc4 tags || sc5 tags || sc6 tags
      || sc7 tags || sc8 tags || sc9 tags) = true := by
  unfold structured_category at h
  split_ifs at h <;> simp_all

/-- Each leading rule's predicate contains its structured test as a
disjunct, so a structured match implies a leading-rule match. -/
theorem sc_chain_to_cond_chain (tags : Tags) (name : String)
    (h : (sc1 tags || sc2 tags || sc3 tags || sc4 tags || sc5 tags
      || sc6 tags || sc7 tags || sc8 tags || sc9 tags) = true) :
    (cond1 tags || cond2 tags name || cond3 tags name || cond4 tags
      || cond5 tags name || cond6 tags name || cond7 tags name
      || cond8 tags name || cond9 tags name) = true := by
  simp only [cond1, cond2, cond3, cond4, cond5, cond6, cond7, cond8, cond9,
    Bool.or_eq_true] at h ⊢
  tauto

/-- If some leading rule matches, the nine-rule cascade decides. -/
theorem head_isSome_of_any (tags : Tags) (name : String)
    (h : (cond1 tags || cond2 tags name || cond3 tags name || cond4 tags
      || cond5 tags name || cond6 tags name || cond7 tags name
      || cond8 tags name || cond9 tags name) = true) :
    (head_rules_category tags name).isSome = true := by
  unfold head_rules_category
  split_ifs <;> simp_all

/-- If the nine-rule cascade decides, some leading rule matched. -/
theorem head_isSome_or (tags : Tags) (name : String)
    (h : (head_rules_category tags name).isSome = true) :
    (cond1 tags || cond2 tags name || cond3 tags name || cond4 tags
      || cond5 tags name || cond6 tags name || cond7 tags name
      || cond8 tags name || cond9 tags name) = true := by
  unfold head_rules_category at h
  split_ifs at h <;> simp_all

/-- When a leading rule matches, the full cascade agrees with the
nine-rule cascade: the trailing fallback rules are not consulted. -/
theorem map_eq_head_of_any (tags : Tags) (name : String)
    (h : (cond1 tags || cond2 tags name || cond3 tags name || cond4 tags
      || cond5 tags name || cond6 tags name || cond7 tags name
      || cond8 tags name || cond9 tags name) = true) :
    map_category_by_tags tags name = head_rules_category tags name := by
  unfold map_category_by_tags head_rules_category
  by_cases h1 : cond1 tags = true
  · rw [if_pos h1, if_pos h1]
  rw [if_neg h1, if_neg h1]
  by_cases h2 : cond2 tags name = true
  · rw [if_pos h2, if_pos h2]
  rw [if_neg h2, if_neg h2]
  by_cases h3 : cond3 tags name = true
  · rw [if_pos h3, if_pos h3]
  rw [if_neg h3, if_neg h3]
  by_cases h4 : cond4 tags = true
  · rw [if_pos h4, if_pos h4]
  rw [if_neg h4, if_neg h4]
  by_cases h5 : cond5 tags name = true
  · rw [if_pos h5, if_pos h5]
  rw [if_neg h5, if_neg h5]
  by_cases h6 : cond6 tags name = true
  · rw [if_pos h6, if_pos h6]
  rw [if_neg h6, if_neg h6]
  by_cases h7 : cond7 tags name = true
  · rw [if_pos h7, if_pos h7]
  rw [if_neg h7, if_neg h7]
  by_cases h8 : cond8 tags name = true
  · rw [if_pos h8, if_pos h8]
  rw [if_neg h8, if_neg h8]
  by_cases h9 : cond9 tags name = true
  · rw [if_pos h9, if_pos h9]
  exfalso
  simp only [Bool.or_eq_true] at h
  tauto

/-- If one of the nine leading (structured-tag-bearing) rules fires, the
full cascade returns exactly that leading rule's decision. -/
theorem head_some_eq_map (tags : Tags) (name : String)
    (h : (head_rules_category tags name).isSome = true) :
    map_category_by_tags tags name = head_rules_category tags name :=
  map_eq_head_of_any tags name (head_isSome_or tags name h)

/-- A structured-tag match makes the corresponding leading rule fire. -/
theorem structured_some_head_some (tags : Tags) (name : String)
    (h : (structured_category tags).isSome = true) :
    (head_rules_category tags name).isSome = true :=
  head_isSome_of_any tags name
    (sc_chain_to_cond_chain tags name (structured_isSome_or tags h))

/-- C1 (amended): the substring-only fallback rules are ordered after all
structured-tag rules, so a feature carrying a recognized structured tag is
always classified by one of the nine leading rules and never reaches the
trailing generic text fallbacks — but a text-match disjunct embedded in an
earlier mixed rule may still override the structured category (see the
counterexample). -/
theorem C1_fallbacks_after_structured (tags : Tags) (name : String)
    (h : (structured_category tags).isSome = true) :
    (head_rules_category tags name).isSome = true
      ∧ map_category_by_tags tags name = head_rules_category tags name := by
  have hh := structured_some_head_some tags name h
  exact ⟨hh, head_some_eq_map tags name hh⟩

/-- Witness for C1 (amended) at the concrete feature `amenity=fuel`,
name "depot". -/
theorem C1_fallbacks_after_structured_witness :
    (structured_category [("amenity", "fuel")]).isSome = true
      ∧ ((head_rules_category [("amenity", "fuel")] "depot").isSome = true
        ∧ map_category_by_tags [("amenity", "fuel")] "depot"
            = head_rules_category [("amenity", "fuel")] "depot") :=
  ⟨by decide, C1_fallbacks_after_structured [("amenity", "fuel")] "depot" (by decide)⟩

/-- C1 as stated is false: the feature `amenity=fuel` named "scrap" has
structured-tag category "Petrol stations / Garages", but the cascade
classifies it "Waste Sites" through the generic substring test
`"scrap" in text` embedded in the second rule, which runs before the
`amenity=fuel` rule. -/
theorem C1_counterexample :
    structured_category [("amenity", "fuel")] = some "Petrol stations / Garages"
      ∧ map_category_by_tags [("amenity", "fuel")] "scrap" = some "Waste Sites"
      ∧ ¬ (∀ (tags : Tags) (name c : String),
            structured_category tags = some c →
              map_category_by_tags tags name = some c) := by
  refine ⟨by decide, by decide, fun h => ?_⟩
  have h2 := h [("amenity", "fuel")] "scrap" "Petrol stations / Garages" (by decide)
  have h3 : map_category_by_tags [("amenity", "fuel")] "scrap"
      = some "Waste Sites" := by decide
  rw [h2] at h3
  exact absurd (Option.some.inj h3) (by decide)

/-- The number of set zone flags is 1 on distances up to 100 (negative
ones included, via the bare `d < 10` test) and 0 beyond 100. -/
theorem zone_count_eq (d : ℚ) :
    flagsTrueCount (zone_flags d) = if d ≤ 100 then 1 else 0 := by
  rcases lt_or_le d 10 with h1 | h1
  · have nB : ¬(10 ≤ d) := by linarith
    have nC : ¬(25 < d) := by linarith
    have nD : ¬(50 < d) := by linarith
    have hle : d ≤ 100 := by linarith
    simp [zone_flags, flagsTrueCount, h1, nB, nC, nD, hle]
  · rcases le_or_lt d 25 with h2 | h2
    · have n1 : ¬(d < 10) := not_lt.2 h1
      have nC : ¬(25 < d) := by linarith
      have nD : ¬(50 < d) := by linarith
      have hle : d ≤ 100 := by linarith
      simp [zone_flags, flagsTrueCount, n1, h1, h2, nC, nD, hle]
    · rcases le_or_lt d 50 with h3 | h3
      · have n1 : ¬(d < 10) := by push_neg; linarith
        have pB : (10 : ℚ) ≤ d := by linarith
        have nB : ¬(d ≤ 25) := by push_neg; linarith
        have nD : ¬(50 < d) := by linarith
        have hle : d ≤ 100 := by linarith
        simp [zone_flags, flagsTrueCount, n1, pB, nB, h2, h3, nD, hle]
      · rcases le_or_lt d 100 with h4 | h4
        · have n1 : ¬(d < 10) := by push_neg; linarith
          have pB : (10 : ℚ) ≤ d := by linarith
          have nB : ¬(d ≤ 25) := by push_neg; linarith
          have pC : (25 : ℚ) < d := by linarith
          have nC : ¬(d ≤ 50) := by push_neg; linarith
          simp [zone_flags, flagsTrueCount, n1, pB, nB, pC, nC, h3, h4]
        · have n1 : ¬(d < 10) := by push_neg; linarith
          have pB : (10 : ℚ) ≤ d := by linarith
          have nB : ¬(d ≤ 25) := by push_neg; linarith
          have pC : (25 : ℚ) < d := by linarith
          have nC : ¬(d ≤ 50) := by push_neg; linarith
          have pD : (50 : ℚ) < d := by linarith
          have nD : ¬(d ≤ 100) := by push_neg; linarith
          simp [zone_flags, flagsTrueCount, n1, pB, nB, pC, nC, pD, nD]

/-- C2 (amended): for every distance, at most one zone flag is set; no
flag is set iff d > 100; exactly one flag is set iff d ≤ 100 — negative
distances fall into the `<10m` band because the first test is a bare
`d < 10`, so "no flag iff d > 100 or d < 0" does not hold. -/
theorem C2_zone_bands (d : ℚ) :
    flagsTrueCount (zone_flags d) ≤ 1
      ∧ (flagsTrueCount (zone_flags d) = 0 ↔ 100 < d)
      ∧ (flagsTrueCount (zone_flags d) = 1 ↔ d ≤ 100) := by
  have h := zone_count_eq d
  by_cases hle : d ≤ 100
  · rw [if_pos hle] at h
    rw [h]
    refine ⟨by norm_num, ?_, by simp [hle]⟩
    constructor
    · intro h0; exact absurd h0 one_ne_zero
    · intro hgt; exact absurd hle (not_le.2 hgt)
  · rw [if_neg hle] at h
    rw [h]
    refine ⟨by norm_num, by simp [not_le.1 hle], ?_⟩
    constructor
    · intro h1; exact absurd h1 (by norm_num)
    · intro hle2; exact absurd hle2 hle

/-- C2 as stated is false at d = -1: a flag (the `<10m` one) is set even
though d < 0, so "no flag is true iff d > 100 or d < 0" fails. -/
theorem C2_counterexample :
    flagsTrueCount (zone_flags (-1)) = 1
      ∧ ((-1 : ℚ) > 100 ∨ (-1 : ℚ) < 0)
      ∧ ¬ (flagsTrueCount (zone_flags (-1)) = 0
            ↔ ((-1 : ℚ) > 100 ∨ (-1 : ℚ) < 0)) := by
  decide

/-- Success soundness of the failover loop: a success comes from an
endpoint of the tried list, every endpoint before it failed, and the
payload is that endpoint's own response. -/
theorem tryEndpoints_ok {E R : Type} (fetch : String → Except E R) :
    ∀ (urls : List String) (last : Option E) (r : R) (u : String),
      tryEndpoints fetch urls last = Except.ok (r, u) →
      fetch u = Except.ok r ∧ ∃ pre post, urls = pre ++ u :: post
        ∧ ∀ v ∈ pre, ∃ e, fetch v = Except.error e := by
  intro urls
  induction urls with
  | nil =>
    intro last r u h
    simp [tryEndpoints] at h
  | cons url rest ih =>
    intro last r u h
    rw [tryEndpoints] at h
    cases hf : fetch url with
    | ok r0 =>
      rw [hf] at h
      have h' : (Except.ok (r0, url) : Except (Option E) (R × String))
          = Except.ok (r, u) := h
      have hpair : (r0, url) = (r, u) := by injection h'
      have hr : r0 = r := congrArg Prod.fst hpair
      have hu : url = u := congrArg Prod.snd hpair
      subst hr
      subst hu
      exact ⟨hf, [], rest, rfl, by intro v hv; cases hv⟩
    | error e =>
      rw [hf] at h
      have h' : tryEndpoints fetch rest (some e) = Except.ok (r, u) := h
      obtain ⟨hu, pre, post, hsplit, hfail⟩ := ih (some e) r u h'
      refine ⟨hu, url :: pre, post, by rw [hsplit]; rfl, ?_⟩
      intro v hv
      rcases List.mem_cons.mp hv with rfl | hv'
      · exact ⟨e, hf⟩
      · exact hfail v hv'

/-- C3: the geodata query walks the fixed endpoint list in order.  If the
first two endpoints fail and the third succeeds, the result is the third
endpoint's response, reported as served by it; every success comes from
the first non-failing endpoint with its own response; when all three
endpoints fail, the error raised is the last endpoint's. -/
theorem C3_endpoint_failover {E R : Type} (fetch : String → Except E R) :
    (∀ (e1 e2 : E) (r : R), fetch EP1 = Except.error e1 →
        fetch EP2 = Except.error e2 → fetch EP3 = Except.ok r →
        query_overpass fetch = Except.ok (r, EP3))
    ∧ (∀ (r : R) (u : String), query_overpass fetch = Except.ok (r, u) →
        fetch u = Except.ok r ∧ ∃ pre post, OVERPASS_ENDPOINTS = pre ++ u :: post
          ∧ ∀ v ∈ pre, ∃ e, fetch v = Except.error e)
    ∧ (∀ (e1 e2 e3 : E), fetch EP1 = Except.error e1 →
        fetch EP2 = Except.error e2 → fetch EP3 = Except.error e3 →
        query_overpass fetch = Except.error (some e3)) := by
  refine ⟨?_, ?_, ?_⟩
  · intro e1 e2 r h1 h2 h3
    simp [query_overpass, OVERPASS_ENDPOINTS, tryEndpoints, h1, h2, h3]
  · intro r u h
    exact tryEndpoints_ok fetch OVERPASS_ENDPOINTS none r u h
  · intro e1 e2 e3 h1 h2 h3
    simp [query_overpass, OVERPASS_ENDPOINTS, tryEndpoints, h1, h2, h3]

/-- Witness for C3: with a fetch that fails on the first two endpoints
and succeeds on the third, the query returns the third endpoint's payload
paired with the third endpoint. -/
theorem C3_endpoint_failover_witness :
    query_overpass fetchW = Except.ok ("payload", EP3) :=
  (C3_endpoint_failover fetchW).1 ("failed " ++ EP1) ("failed " ++ EP2)
    "payload" rfl rfl rfl

/-- The dedup loop output is a sublist of its input. -/
theorem dedupe_acc_sublist :
    ∀ (l : List Row) (seen : List String), (dedupe_acc l seen).Sublist l := by
  intro l
  induction l with
  | nil => intro seen; simp [dedupe_acc]
  | cons it rest ih =>
    intro seen
    rw [dedupe_acc]
    split_ifs with hk
    · exact (ih seen).trans (List.sublist_cons_self it rest)
    · exact List.Sublist.cons₂ it (ih (dedupKey it :: seen))

/-- No item kept by the dedup loop has a key in the already-seen set. -/
theorem dedupe_acc_not_seen :
    ∀ (l : List Row) (seen : List String) (y : Row),
      y ∈ dedupe_acc l seen → dedupKey y ∉ seen := by
  intro l
  induction l with
  | nil => intro seen y h; simp [dedupe_acc] at h
  | cons it rest ih =>
    intro seen y h
    rw [dedupe_acc] at h
    split_ifs at h with hk
    · exact ih seen y h
    · rcases List.mem_cons.mp h with rfl | h'
      · exact hk
      · have hy := ih (dedupKey it :: seen) y h'
        intro hmem
        exact hy (List.mem_cons_of_mem _ hmem)

/-- The dedup loop output carries pairwise distinct keys. -/
theorem dedupe_acc_pairwise :
    ∀ (l : List Row) (seen : List String),
      (dedupe_acc l seen).Pairwise (fun a b => dedupKey a ≠ dedupKey b) := by
  intro l
  induction l with
  | nil => intro seen; simp [dedupe_acc]
  | cons it rest ih =>
    intro seen
    rw [dedupe_acc]
    split_ifs with hk
    · exact ih seen
    · refine List.Pairwise.cons ?_ (ih _)
      intro b hb heq
      have hnot := dedupe_acc_not_seen rest (dedupKey it :: seen) b hb
      apply hnot
      rw [← heq]
      exact List.mem_cons_self _ _

/-- Every item kept by the dedup loop is the first input item bearing its
key. -/
theorem dedupe_acc_find :
    ∀ (l : List Row) (seen : List String) (y : Row), y ∈ dedupe_acc l seen →
      l.find? (fun z => dedupKey z == dedupKey y) = some y := by
  intro l
  induction l with
  | nil => intro seen y h; simp [dedupe_acc] at h
  | cons it rest ih =>
    intro seen y h
    rw [dedupe_acc] at h
    split_ifs at h with hk
    · have hy := dedupe_acc_not_seen rest seen y h
      have hne : dedupKey it ≠ dedupKey y := fun he => hy (he ▸ hk)
      rw [List.find?_cons_of_neg _ (by simp [hne])]
      exact ih seen y h
    · rcases List.mem_cons.mp h with rfl | h'
      · rw [List.find?_cons_of_pos _ (by simp)]
      · have hy := dedupe_acc_not_seen rest (dedupKey it :: seen) y h'
        have hne : dedupKey it ≠ dedupKey y := by
          intro he
          apply hy
          rw [← he]
          exact List.mem_cons_self _ _
        rw [List.find?_cons_of_neg _ (by simp [hne])]
        exact ih (dedupKey it :: seen) y h'

/-- Every input item whose key is not yet seen is represented in the
dedup loop output by an item with the same key. -/
theorem dedupe_acc_covers :
    ∀ (l : List Row) (seen : List String) (x : Row), x ∈ l →
      dedupKey x ∉ seen → ∃ y ∈ dedupe_acc l seen, dedupKey y = dedupKey x := by
  intro l
  induction l with
  | nil => intro seen x hx; cases hx
  | cons it rest ih =>
    intro seen x hx hkx
    rw [dedupe_acc]
    split_ifs with hk
    · rcases List.mem_cons.mp hx with rfl | hx'
      · exact absurd hk hkx
      · exact ih seen x hx' hkx
    · rcases List.mem_cons.mp hx with rfl | hx'
      · exact ⟨x, List.mem_cons_self _ _, rfl⟩
      · by_cases he : dedupKey x = dedupKey it
        · exact ⟨it, List.mem_cons_self _ _, he.symm⟩
        · have hnm : dedupKey x ∉ dedupKey it :: seen := by
            intro hmem
            rcases List.mem_cons.mp hmem with h1 | h2
            · exact he h1
            · exact hkx h2
          obtain ⟨y, hy, hyk⟩ := ih (dedupKey it :: seen) x hx' hnm
          exact ⟨y, List.mem_cons_of_mem _ hy, hyk⟩

/-- C4: the deduplicated list keeps exactly the first occurrence per
dedup key — it has no two entries with equal keys, it is a subsequence of
the candidate list (which itself stays intact as the all-candidates set),
every input key is still represented, and each kept entry is the first
input entry bearing its key. -/
theorem C4_dedup_first_occurrence (l : List Row) :
    (dedupe l).Sublist l
    ∧ (dedupe l).Pairwise (fun a b => dedupKey a ≠ dedupKey b)
    ∧ (∀ x ∈ l, ∃ y ∈ dedupe l, dedupKey y = dedupKey x)
    ∧ (∀ y ∈ dedupe l, l.find? (fun z => dedupKey z == dedupKey y) = some y) := by
  refine ⟨dedupe_acc_sublist l [], dedupe_acc_pairwise l [], ?_, ?_⟩
  · intro x hx
    exact dedupe_acc_covers l [] x hx (by simp)
  · intro y hy
    exact dedupe_acc_find l [] y hy

/-- Witness for C4 on a two-element candidate list with equal keys: only
the first survives, and it represents the dropped duplicate's key. -/
theorem C4_dedup_first_occurrence_witness :
    dedupe [rowA, rowB] = [rowA]
      ∧ (dedupe [rowA, rowB]).Sublist [rowA, rowB]
      ∧ (∃ y ∈ dedupe [rowA, rowB], dedupKey y = dedupKey rowB) := by
  refine ⟨by decide, (C4_dedup_first_occurrence [rowA, rowB]).1, ?_⟩
  exact (C4_dedup_first_occurrence [rowA, rowB]).2.2.1 rowB (by decide)

/-- Left cancellation for string concatenation. -/
theorem strAppend_left_cancel (pre a b : String) (h : pre ++ a = pre ++ b) :
    a = b := by
  have hd : pre.data ++ a.data = pre.data ++ b.data := congrArg String.data h
  cases a with
  | mk la =>
    cases b with
    | mk lb =>
      exact congrArg String.mk (List.append_cancel_left hd)

/-- C5: the dedup key is built from the rounded reprojected nearest-point
coordinates; when the reprojection failed, both coordinate cells are the
empty placeholder and the key falls back to appending the feature's OSM
id, so two no-geometry rows share a key exactly when they share an id —
distinct features lacking geometry are never merged. -/
theorem C5_dedup_key_derivation :
    (∀ (c : CandCtx) (d ae an : ℚ) (row : Row),
        emit_candidate c d (some (ae, an)) = some row →
          row.assetEasting = ratStr (roundQ2 ae)
            ∧ row.assetNorthing = ratStr (roundQ2 an)
            ∧ row.osmId = c.osmId)
    ∧ (∀ row : Row, row.assetEasting ≠ "" → row.assetNorthing ≠ "" →
        dedupKey row = row.assetEasting ++ "_" ++ row.assetNorthing)
    ∧ (∀ (c : CandCtx) (d : ℚ) (row : Row),
        emit_candidate c d none = some row →
          row.assetEasting = "" ∧ row.assetNorthing = ""
            ∧ dedupKey row = "__" ++ c.osmId)
    ∧ (∀ r1 r2 : Row, r1.assetEasting = "" → r1.assetNorthing = "" →
        r2.assetEasting = "" → r2.assetNorthing = "" →
        (dedupKey r1 = dedupKey r2 ↔ r1.osmId = r2.osmId)) := by
  refine ⟨?_, ?_, ?_, ?_⟩
  · intro c d ae an row h
    unfold emit_candidate at h
    split_ifs at h with h1 h2
    obtain rfl := Option.some.inj h
    exact ⟨rfl, rfl, rfl⟩
  · intro row h1 h2
    unfold dedupKey
    rw [if_neg (fun hc => hc.elim h1 h2)]
  · intro c d row h
    unfold emit_candidate at h
    split_ifs at h with h1 h2
    obtain rfl := Option.some.inj h
    refine ⟨rfl, rfl, ?_⟩
    unfold dedupKey
    rw [if_pos (Or.inl rfl)]
    show ("" ++ "_" ++ "") ++ "_" ++ c.osmId = "__" ++ c.osmId
    exact congrArg (· ++ c.osmId) (by decide)
  · intro r1 r2 h1 h2 h3 h4
    have k1 : dedupKey r1 = "__" ++ r1.osmId := by
      unfold dedupKey
      rw [if_pos (Or.inl h1), h1, h2]
      exact congrArg (· ++ r1.osmId) (by decide)
    have k2 : dedupKey r2 = "__" ++ r2.osmId := by
      unfold dedupKey
      rw [if_pos (Or.inl h3), h3, h4]
      exact congrArg (· ++ r2.osmId) (by decide)
    rw [k1, k2]
    constructor
    · intro h
      exact strAppend_left_cancel "__" _ _ h
    · intro h
      rw [h]

/-- Witness for C5: a concrete emitted no-geometry row gets the
placeholder-plus-id key, a coordinate-bearing row gets the coordinate
key, and the two distinct no-geometry features are not merged. -/
theorem C5_dedup_key_derivation_witness :
    (∃ row, emit_candidate ctx0 5 none = some row
        ∧ row.assetEasting = "" ∧ dedupKey row = "__" ++ ctx0.osmId)
      ∧ dedupKey rowA = rowA.assetEasting ++ "_" ++ rowA.assetNorthing
      ∧ (dedupKey rowN1 = dedupKey rowN2 ↔ rowN1.osmId = rowN2.osmId)
      ∧ ¬ dedupKey rowN1 = dedupKey rowN2 := by
  have h := C5_dedup_key_derivation
  obtain ⟨row0, hrow0⟩ : ∃ row, emit_candidate ctx0 5 none = some row := ⟨_, rfl⟩
  refine ⟨⟨row0, hrow0, (h.2.2.1 ctx0 5 row0 hrow0).1, (h.2.2.1 ctx0 5 row0 hrow0).2.2⟩,
    h.2.1 rowA (by decide) (by decide), h.2.2.2 rowN1 rowN2 rfl rfl rfl rfl, ?_⟩
  intro hk
  have hid : rowN1.osmId = rowN2.osmId :=
    (h.2.2.2 rowN1 rowN2 rfl rfl rfl rfl).mp hk
  exact absurd hid (by decide)

/-- The "X" cell is truthy. -/
theorem bneXE : (("X" : String) != "") = true := by decide

/-- The empty cell is falsy. -/
theorem bneEE : (("" : String) != "") = false := by decide

/-- Some zone flag is set exactly on distances up to 100 (negative ones
included, via the bare `d < 10` test). -/
theorem flagsAny_zone_iff (d : ℚ) : flagsAny (zone_flags d) = true ↔ d ≤ 100 := by
  rcases lt_or_le d 10 with h1 | h1
  · have hle : d ≤ 100 := by linarith
    simp [zone_flags, flagsAny, h1, hle, bneXE]
  · rcases le_or_lt d 25 with h2 | h2
    · have n1 : ¬(d < 10) := not_lt.2 h1
      have hle : d ≤ 100 := by linarith
      simp [zone_flags, flagsAny, n1, h1, h2, hle, bneXE, bneEE]
    · rcases le_or_lt d 50 with h3 | h3
      · have n1 : ¬(d < 10) := by push_neg; linarith
        have nB : ¬(d ≤ 25) := by push_neg; linarith
        have hle : d ≤ 100 := by linarith
        simp [zone_flags, flagsAny, n1, nB, h2, h3, hle, bneXE, bneEE]
      · rcases le_or_lt d 100 with h4 | h4
        · have n1 : ¬(d < 10) := by push_neg; linarith
          have nB : ¬(d ≤ 25) := by push_neg; linarith
          have nC : ¬(d ≤ 50) := by push_neg; linarith
          simp [zone_flags, flagsAny, n1, nB, nC, h3, h4, bneXE, bneEE]
        · have n1 : ¬(d < 10) := by push_neg; linarith
          have nB : ¬(d ≤ 25) := by push_neg; linarith
          have nC : ¬(d ≤ 50) := by push_neg; linarith
          have nD : ¬(d ≤ 100) := by push_neg; linarith
          simp [zone_flags, flagsAny, n1, nB, nC, nD, bneEE]

/-- A candidate survives the radius filter and the defensive flag check
exactly when its unrounded distance is within the search radius. -/
theorem emit_isSome_iff (c : CandCtx) (en : Option (ℚ × ℚ)) (d : ℚ) :
    (emit_candidate c d en).isSome = true ↔ d ≤ SEARCH_RADIUS := by
  unfold emit_candidate
  split_ifs with h1 h2
  · have h1' : (100 : ℚ) < d := h1
    constructor
    · intro hc
      exact absurd hc (by decide)
    · intro hle
      exact absurd hle (not_le.mpr h1')
  · have hle : d ≤ SEARCH_RADIUS := not_lt.mp h1
    have hany : flagsAny (zone_flags d) = true := (flagsAny_zone_iff d).mpr hle
    rw [hany] at h2
    exact absurd h2 (by decide)
  · exact iff_of_true rfl (not_lt.mp h1)

/-- An emitted row's zone cells come from banding the unrounded distance
and its distance cell from rounding it. -/
theorem emit_fields (c : CandCtx) (en : Option (ℚ × ℚ)) (d : ℚ) (row : Row)
    (h : emit_candidate c d en = some row) :
    row.zA = (zone_flags d).zA ∧ row.zB = (zone_flags d).zB
      ∧ row.zC = (zone_flags d).zC ∧ row.zD = (zone_flags d).zD
      ∧ row.distance = ratStr (roundQ2 d) := by
  unfold emit_candidate at h
  split_ifs at h
  obtain rfl := Option.some.inj h
  exact ⟨rfl, rfl, rfl, rfl, rfl⟩

/-- C7: the radius filter and the banding both consume the unrounded
distance; rounding to two decimals happens only in the emitted
`Distance(m)` cell.  In particular 100.004 m is excluded although it
rounds to 100.00, and 9.996 m lands in the `<10m` band although it rounds
to 10.00 (which would band as `10-25m`). -/
theorem C7_round_only_at_emission (c : CandCtx) (en : Option (ℚ × ℚ)) :
    (∀ d : ℚ, (emit_candidate c d en).isSome = true ↔ d ≤ SEARCH_RADIUS)
    ∧ (∀ (d : ℚ) (row : Row), emit_candidate c d en = some row →
        row.zA = (zone_flags d).zA ∧ row.zB = (zone_flags d).zB
          ∧ row.zC = (zone_flags d).zC ∧ row.zD = (zone_flags d).zD
          ∧ row.distance = ratStr (roundQ2 d))
    ∧ emit_candidate c (100 + 1/250) en = none
    ∧ roundQ2 (100 + 1/250) = 100
    ∧ (∀ row : Row, emit_candidate c (9996/1000) en = some row → row.zA = "X")
    ∧ roundQ2 (9996/1000) = 10
    ∧ (zone_flags (10 : ℚ)).zA = "" := by
  refine ⟨emit_isSome_iff c en, fun d row h => emit_fields c en d row h,
    ?_, by norm_num [roundQ2, round_eq], ?_, by norm_num [roundQ2, round_eq],
    by norm_num [zone_flags]⟩
  · unfold emit_candidate
    rw [if_pos (show (100 + 1/250 : ℚ) > SEARCH_RADIUS by norm_num [SEARCH_RADIUS])]
  · intro row h
    have hz := (emit_fields c en (9996/1000) row h).1
    rw [hz]
    norm_num [zone_flags]

/-- Witness for C7 at 9.996 m: the candidate is emitted, carries the
`<10m` flag from the unrounded distance and the rounded cell 10. -/
theorem C7_round_only_at_emission_witness :
    ∃ row, emit_candidate ctx0 (9996/1000) none = some row ∧ row.zA = "X"
      ∧ row.distance = ratStr (roundQ2 (9996/1000)) := by
  have h := C7_round_only_at_emission ctx0 none
  have hs : (emit_candidate ctx0 (9996/1000) none).isSome = true :=
    (h.1 (9996/1000)).mpr (by norm_num [SEARCH_RADIUS])
  obtain ⟨row, hrow⟩ := Option.isSome_iff_exists.mp hs
  exact ⟨row, hrow, h.2.2.2.2.1 row hrow,
    (h.2.1 (9996/1000) row hrow).2.2.2.2⟩

/-- C10: every record the element loop appends to the all-candidates
list comes from a resolved distance d with 0 ≤ d (given that resolved
distances are geodesic, hence non-negative) and d ≤ 100, carries exactly
one zone flag; and the defensive branch discarding a flagless candidate
is unreachable once the radius filter has passed. -/
theorem C10_candidates_invariant
    (resolveEl : Element → Option (ℚ × ℚ × ℚ))
    (toEN : ℚ → ℚ → Option (ℚ × ℚ))
    (jobRef : String) (easting northing lat lon : ℚ) (server : String)
    (els : List Element)
    (hnonneg : ∀ el d nlat nlon, resolveEl el = some (d, nlat, nlon) → 0 ≤ d) :
    (∀ row ∈ els.filterMap
        (element_match resolveEl toEN jobRef easting northing lat lon server),
      ∃ el ∈ els, ∃ d nlat nlon, resolveEl el = some (d, nlat, nlon)
        ∧ 0 ≤ d ∧ d ≤ SEARCH_RADIUS ∧ flagsTrueCount (zone_flags d) = 1
        ∧ row.zA = (zone_flags d).zA ∧ row.zB = (zone_flags d).zB
        ∧ row.zC = (zone_flags d).zC ∧ row.zD = (zone_flags d).zD)
    ∧ (∀ (c : CandCtx) (d : ℚ) (en : Option (ℚ × ℚ)), ¬ d > SEARCH_RADIUS →
        (emit_candidate c d en).isSome = true) := by
  constructor
  · intro row hrow
    obtain ⟨el, hel, hm⟩ := List.mem_filterMap.mp hrow
    unfold element_match at hm
    rcases hcat : map_category_by_tags el.tags
        ((getTag el.tags "name").getD "Unnamed asset") with _ | cat
    · rw [hcat] at hm
      exact absurd hm (by simp)
    · rw [hcat] at hm
      rcases hres : resolveEl el with _ | ⟨d, nlat, nlon⟩
      · rw [hres] at hm
        exact absurd hm (by simp)
      · rw [hres] at hm
        have hm' : emit_candidate
            { jobRef := jobRef, easting := easting, northing := northing
              lat := lat, lon := lon
              name := (getTag el.tags "name").getD "Unnamed asset"
              category := cat, osmType := el.typ, osmId := el.id
              tags := el.tags, server := server }
            d (toEN nlon nlat) = some row := hm
        have hd0 := hnonneg el d nlat nlon hres
        have hsome : (emit_candidate
            { jobRef := jobRef, easting := easting, northing := northing
              lat := lat, lon := lon
              name := (getTag el.tags "name").getD "Unnamed asset"
              category := cat, osmType := el.typ, osmId := el.id
              tags := el.tags, server := server }
            d (toEN nlon nlat)).isSome = true := by rw [hm']; rfl
        have hle : d ≤ SEARCH_RADIUS := (emit_isSome_iff _ _ d).mp hsome
        have hflags := emit_fields _ _ d row hm'
        have hcount : flagsTrueCount (zone_flags d) = 1 := by
          rw [zone_count_eq d, if_pos (show d ≤ 100 from hle)]
        exact ⟨el, hel, d, nlat, nlon, hres, hd0, hle, hcount, hflags.1,
          hflags.2.1, hflags.2.2.1, hflags.2.2.2.1⟩
  · intro c d en hd
    exact (emit_isSome_iff c en d).mpr (not_lt.mp hd)

/-- Witness for C10: with a resolver giving distance 5, its non-negativity
hypothesis holds and a candidate at distance 5 passes the defensive flag
check. -/
theorem C10_candidates_invariant_witness :
    (emit_candidate ctx0 5 none).isSome = true :=
  (C10_candidates_invariant resolve0 toEN0 "J" 1 2 3 4 "s" [el0]
    (by
      intro el d nlat nlon h
      simp [resolve0] at h
      rw [← h.1]
      norm_num)).2 ctx0 5 none (by norm_num [SEARCH_RADIUS])

/-- C8: when the geodata query succeeds but the deduplicated match set is
empty, the engine emits exactly one record for that row — the
distinguished no-asset record carrying the informational
`NO_ASSET_MESSAGE` constant — and the following rows are still
processed. -/
theorem C8_no_asset_record (parse : String → Option ℚ)
    (project : ℚ → ℚ → ℚ × ℚ)
    (runQuery : ℚ → ℚ → Except String (List Element × String))
    (resolve : ℚ → ℚ → Element → Option (ℚ × ℚ × ℚ))
    (toEN : ℚ → ℚ → Option (ℚ × ℚ))
    (r : InputRow) (rest : List InputRow) (easting northing : ℚ)
    (els : List Element) (server : String)
    (hE : parse r.easting = some easting)
    (hN : parse r.northing = some northing)
    (hq : runQuery (project easting northing).2 (project easting northing).1
      = Except.ok (els, server))
    (hempty : dedupe (els.filterMap
      (element_match
        (resolve (project easting northing).2 (project easting northing).1)
        toEN r.jobRef easting northing
        (project easting northing).2 (project easting northing).1 server)) = []) :
    process_row parse project runQuery resolve toEN r
        = [no_asset_row r easting northing
            (project easting northing).2 (project easting northing).1 server]
      ∧ (no_asset_row r easting northing
          (project easting northing).2 (project easting northing).1 server).exc
        = NO_ASSET_MESSAGE
      ∧ process_coords parse project runQuery resolve toEN (r :: rest)
        = process_row parse project runQuery resolve toEN r
          ++ process_coords parse project runQuery resolve toEN rest := by
  refine ⟨?_, rfl, rfl⟩
  simp [process_row, hE, hN, hq, hempty]

/-- Witness for C8: an empty query result yields exactly the no-asset
record. -/
theorem C8_no_asset_record_witness :
    process_row parse0 project0 runQuery0 resolveQ0 toEN0 rowIn
        = [no_asset_row rowIn 1 1 (project0 1 1).2 (project0 1 1).1 "srv"]
      ∧ (no_asset_row rowIn 1 1 (project0 1 1).2 (project0 1 1).1 "srv").exc
        = NO_ASSET_MESSAGE
      ∧ process_coords parse0 project0 runQuery0 resolveQ0 toEN0 (rowIn :: [])
        = process_row parse0 project0 runQuery0 resolveQ0 toEN0 rowIn
          ++ process_coords parse0 project0 runQuery0 resolveQ0 toEN0 [] :=
  C8_no_asset_record parse0 project0 runQuery0 resolveQ0 toEN0 rowIn [] 1 1
    [] "srv" rfl rfl rfl rfl

/-- C9: a row whose easting or northing fails to parse yields exactly one
record — the invalid-coordinates error record — and processing continues
with the remaining rows unchanged. -/
theorem C9_invalid_row_continues (parse : String → Option ℚ)
    (project : ℚ → ℚ → ℚ × ℚ)
    (runQuery : ℚ → ℚ → Except String (List Element × String))
    (resolve : ℚ → ℚ → Element → Option (ℚ × ℚ × ℚ))
    (toEN : ℚ → ℚ → Option (ℚ × ℚ))
    (r : InputRow) (rest : List InputRow)
    (h : parse r.easting = none ∨ parse r.northing = none) :
    process_row parse project runQuery resolve toEN r = [invalid_row r]
      ∧ (invalid_row r).exc = "Invalid input coords"
      ∧ process_coords parse project runQuery resolve toEN (r :: rest)
        = invalid_row r :: process_coords parse project runQuery resolve toEN rest := by
  have hp : process_row parse project runQuery resolve toEN r = [invalid_row r] := by
    unfold process_row
    rcases h with h | h
    · rw [h]
    · rcases hE : parse r.easting with _ | e
      · rfl
      · rw [h]
  refine ⟨hp, rfl, ?_⟩
  have hcons : process_coords parse project runQuery resolve toEN (r :: rest)
      = process_row parse project runQuery resolve toEN r
        ++ process_coords parse project runQuery resolve toEN rest := rfl
  rw [hcons, hp]
  rfl

/-- Witness for C9: the row with easting "bad" yields the invalid-coords
record and the run continues. -/
theorem C9_invalid_row_continues_witness :
    process_row parse0 project0 runQuery0 resolveQ0 toEN0 rowBad
        = [invalid_row rowBad]
      ∧ (invalid_row rowBad).exc = "Invalid input coords"
      ∧ process_coords parse0 project0 runQuery0 resolveQ0 toEN0 (rowBad :: [rowIn])
        = invalid_row rowBad
          :: process_coords parse0 project0 runQuery0 resolveQ0 toEN0 [rowIn] :=
  C9_invalid_row_continues parse0 project0 runQuery0 resolveQ0 toEN0 rowBad
    [rowIn] (Or.inl rfl)

/-- Any result of the member-geometry loop is either the incoming best or
the per-sequence result of some non-empty sequence in the list. -/
theorem member_min_origin (seqDist : List (ℚ × ℚ) → Option (ℚ × ℚ × ℚ)) :
    ∀ (geoms : List (List (ℚ × ℚ))) (best : Option (ℚ × ℚ × ℚ))
      (res : ℚ × ℚ × ℚ), member_min seqDist geoms best = some res →
      best = some res
        ∨ ∃ g ∈ geoms, g.isEmpty = false ∧ seqDist g = some res := by
  intro geoms
  induction geoms with
  | nil => intro best res h; exact Or.inl h
  | cons g rest ih =>
    intro best res h
    rw [member_min] at h
    split_ifs at h with hg
    · rcases ih best res h with hb | ⟨g', hg', hne, hsd⟩
      · exact Or.inl hb
      · exact Or.inr ⟨g', List.mem_cons_of_mem _ hg', hne, hsd⟩
    · have hgf : g.isEmpty = false := by
        simpa using hg
      cases hsd : seqDist g with
      | none =>
        rw [hsd] at h
        rcases ih best res h with hb | ⟨g', hg', hne, hsd'⟩
        · exact Or.inl hb
        · exact Or.inr ⟨g', List.mem_cons_of_mem _ hg', hne, hsd'⟩
      | some r0 =>
        rw [hsd] at h
        cases best with
        | none =>
          rcases ih (some r0) res h with hb | ⟨g', hg', hne, hsd'⟩
          · exact Or.inr ⟨g, List.mem_cons_self _ _, hgf,
              by rw [hsd]; exact congrArg some (Option.some.inj hb)⟩
          · exact Or.inr ⟨g', List.mem_cons_of_mem _ hg', hne, hsd'⟩
        | some b =>
          have h' : (if r0.1 < b.1 then member_min seqDist rest (some r0)
              else member_min seqDist rest (some b)) = some res := h
          split_ifs at h' with hlt
          · rcases ih (some r0) res h' with hb | ⟨g', hg', hne, hsd'⟩
            · exact Or.inr ⟨g, List.mem_cons_self _ _, hgf,
                by rw [hsd]; exact congrArg some (Option.some.inj hb)⟩
            · exact Or.inr ⟨g', List.mem_cons_of_mem _ hg', hne, hsd'⟩
          · rcases ih (some b) res h' with hb | ⟨g', hg', hne, hsd'⟩
            · exact Or.inl hb
            · exact Or.inr ⟨g', List.mem_cons_of_mem _ hg', hne, hsd'⟩

/-- The member-geometry loop result is a lower bound for every resolvable
non-empty sequence and for the incoming best. -/
theorem member_min_le (seqDist : List (ℚ × ℚ) → Option (ℚ × ℚ × ℚ)) :
    ∀ (geoms : List (List (ℚ × ℚ))) (best : Option (ℚ × ℚ × ℚ))
      (res : ℚ × ℚ × ℚ), member_min seqDist geoms best = some res →
      (∀ g ∈ geoms, ∀ res' : ℚ × ℚ × ℚ, g.isEmpty = false →
          seqDist g = some res' → res.1 ≤ res'.1)
        ∧ (∀ b, best = some b → res.1 ≤ b.1) := by
  intro geoms
  induction geoms with
  | nil =>
    intro best res h
    constructor
    · intro g hg
      cases hg
    · intro b hb
      have h' : best = some res := h
      rw [h'] at hb
      exact le_of_eq (congrArg Prod.fst (Option.some.inj hb))
  | cons g rest ih =>
    intro best res h
    rw [member_min] at h
    split_ifs at h with hg
    · have hres := ih best res h
      refine ⟨?_, hres.2⟩
      intro g' hg' res' hne hsd
      rcases List.mem_cons.mp hg' with rfl | hmem
      · rw [hg] at hne
        exact absurd hne (by decide)
      · exact hres.1 g' hmem res' hne hsd
    · cases hsd : seqDist g with
      | none =>
        rw [hsd] at h
        have hres := ih best res h
        refine ⟨?_, hres.2⟩
        intro g' hg' res' hne hsd'
        rcases List.mem_cons.mp hg' with rfl | hmem
        · rw [hsd'] at hsd
          exact Option.noConfusion hsd
        · exact hres.1 g' hmem res' hne hsd'
      | some r0 =>
        rw [hsd] at h
        cases best with
        | none =>
          have hres := ih (some r0) res h
          have hr0 : res.1 ≤ r0.1 := hres.2 r0 rfl
          constructor
          · intro g' hg' res' hne hsd'
            rcases List.mem_cons.mp hg' with rfl | hmem
            · rw [hsd'] at hsd
              rw [Option.some.inj hsd]
              exact hr0
            · exact hres.1 g' hmem res' hne hsd'
          · intro b hb
            exact Option.noConfusion hb
        | some b =>
          have h' : (if r0.1 < b.1 then member_min seqDist rest (some r0)
              else member_min seqDist rest (some b)) = some res := h
          split_ifs at h' with hlt
          · have hres := ih (some r0) res h'
            have hr0 : res.1 ≤ r0.1 := hres.2 r0 rfl
            constructor
            · intro g' hg' res' hne hsd'
              rcases List.mem_cons.mp hg' with rfl | hmem
              · rw [hsd'] at hsd
                rw [Option.some.inj hsd]
                exact hr0
              · exact hres.1 g' hmem res' hne hsd'
            · intro b' hb'
              refine le_trans hr0 ?_
              rw [← Option.some.inj hb']
              exact le_of_lt hlt
          · have hres := ih (some b) res h'
            have hb0 : res.1 ≤ b.1 := hres.2 b rfl
            constructor
            · intro g' hg' res' hne hsd'
              rcases List.mem_cons.mp hg' with rfl | hmem
              · rw [hsd'] at hsd
                rw [Option.some.inj hsd]
                exact le_trans hb0 (not_lt.mp hlt)
              · exact hres.1 g' hmem res' hne hsd'
            · intro b' hb'
              rw [← Option.some.inj hb']
              exact hb0

/-- When no non-empty sequence resolves, the member-geometry loop leaves
the best unchanged. -/
theorem member_min_none (seqDist : List (ℚ × ℚ) → Option (ℚ × ℚ × ℚ)) :
    ∀ geoms : List (List (ℚ × ℚ)),
      (∀ g ∈ geoms, g.isEmpty = false → seqDist g = none) →
      ∀ best, member_min seqDist geoms best = best := by
  intro geoms
  induction geoms with
  | nil => intro _ best; rfl
  | cons g rest ih =>
    intro hall best
    rw [member_min]
    split_ifs with hg
    · exact ih (fun g' hg' hne => hall g' (List.mem_cons_of_mem _ hg') hne) best
    · have hgf : g.isEmpty = false := by simpa using hg
      rw [hall g (List.mem_cons_self _ _) hgf]
      exact ih (fun g' hg' hne => hall g' (List.mem_cons_of_mem _ hg') hne) best

/-- C6: for a relation without usable inline geometry, the engine's
result over the fetched member coordinate sequences is the per-sequence
result of minimum distance (achieved by one of the non-empty sequences
and a lower bound for all of them); if no sequence resolves and no center
fallback exists, the feature contributes no match. -/
theorem C6_relation_minimum (seqDist : List (ℚ × ℚ) → Option (ℚ × ℚ × ℚ))
    (memberGeoms : List (List (ℚ × ℚ))) (centerDist : ℚ × ℚ → ℚ) :
    (∀ res : ℚ × ℚ × ℚ,
      relation_distance seqDist none memberGeoms none centerDist = some res →
        (∃ g ∈ memberGeoms, g.isEmpty = false ∧ seqDist g = some res)
          ∧ ∀ g ∈ memberGeoms, ∀ res' : ℚ × ℚ × ℚ, g.isEmpty = false →
              seqDist g = some res' → res.1 ≤ res'.1)
    ∧ ((∀ g ∈ memberGeoms, g.isEmpty = false → seqDist g = none) →
        relation_distance seqDist none memberGeoms none centerDist = none) := by
  constructor
  · intro res h
    have hm : member_min seqDist memberGeoms none = some res := by
      unfold relation_distance at h
      rcases hmm : member_min seqDist memberGeoms none with _ | r
      · rw [hmm] at h
        exact absurd (show (none : Option (ℚ × ℚ × ℚ)) = some res from h)
          (by simp)
      · rw [hmm] at h
        have h' : some r = some res := h
        exact h'
    refine ⟨?_, (member_min_le seqDist memberGeoms none res hm).1⟩
    rcases member_min_origin seqDist memberGeoms none res hm with hb | hex
    · exact Option.noConfusion hb
    · exact hex
  · intro hall
    unfold relation_distance
    rw [member_min_none seqDist memberGeoms hall none]

/-- Witness for C6: member ways at 60 m and 45 m yield the 45 m result,
which the theorem locates among the sequences and bounds by the 60 m
one. -/
theorem C6_relation_minimum_witness :
    relation_distance seqDist0 none [g1, g2] none centerDist0 = some (45, 1, 1)
      ∧ (∃ g ∈ [g1, g2], g.isEmpty = false ∧ seqDist0 g = some (45, 1, 1))
      ∧ (45 : ℚ) ≤ 60 := by
  have hrel : relation_distance seqDist0 none [g1, g2] none centerDist0
      = some (45, 1, 1) := by decide
  refine ⟨hrel,
    ((C6_relation_minimum seqDist0 [g1, g2] centerDist0).1 (45, 1, 1) hrel).1, ?_⟩
  exact ((C6_relation_minimum seqDist0 [g1, g2] centerDist0).1 (45, 1, 1) hrel).2
    g1 (by decide) (60, 0, 0) (by decide) (by decide)

end DRA
